import Mathlib

/-!
Verification of the two boundary mechanisms of the Enemamar backend:
the request authorization gate (app/utils/middleware/dependancies.py and
app/utils/security/limiter.py) and the inbound webhook authenticator
(app/router/endpoints/payment_router.py, the POST /payment/webhook handler).

Python strings are embedded as lists of characters (`PyStr`); request bodies
are ASCII in every claim at issue, so the UTF-8 byte sequence of a body is
obtained with `Char.toNat`. Python dicts of decoded JWT claims are embedded
as a structure carrying the two fields the code reads. Raising an
HTTPException is embedded as returning `Except.error` carrying the status
code and detail string of the exception.
-/

set_option autoImplicit false

namespace Enemamar

/-- Python strings, embedded as lists of characters. -/
abbrev PyStr := List Char

/-- Python truthiness of an optional string: None and the empty string are
falsy (`if not token: ...`). -/
def pyFalsy : Option PyStr → Bool
  | none => true
  | some s => s.isEmpty

/-- Python str.split on a single space: split on every single space character, keeping
empty fields, and producing one (possibly empty) field even for the empty
string. -/
def splitOnSpace : PyStr → List PyStr
  | [] => [[]]
  | c :: cs =>
    if c = ' ' then [] :: splitOnSpace cs
    else
      match splitOnSpace cs with
      | [] => [[c]]
      | t :: ts => (c :: t) :: ts

/-- The literal prefix the gate tests for (Bearer followed by a space). -/
def bearerPrefix : PyStr := "Bearer ".toList

/-- Python str.startswith, for list-embedded strings. -/
def pyStartsWith : PyStr → PyStr → Bool
  | [], _ => true
  | _, [] => false
  | p :: ps, c :: cs => (p == c) && pyStartsWith ps cs

/-- Decoded claim set of a verified access token: the code reads the id and
role entries of the decoded dict. -/
structure TokenClaims where
  id : PyStr
  role : PyStr
deriving DecidableEq, Repr

/-- An HTTPException, embedded as a value: status code plus detail string. -/
structure HTTPError where
  statusCode : Nat
  detail : String
deriving DecidableEq, Repr

/-- Environment of the token verifier: what the server key and clock
determine. `decode` returns the claim set and expiry of a token exactly when
the token signature verifies under the server key; `now` is the current
time. -/
structure AuthEnv where
  decode : PyStr → Option (TokenClaims × Nat)
  now : Nat

/-- Modelled from the spec: verify_access_token lives in
app/utils/security/jwt_handler.py, which is absent from the sources; per the
spec it fails with Unauthenticated (HTTP 401) when the token fails signature
verification or is expired, and on success returns the decoded claim set
containing at least the id and the role. -/
def verify_access_token (env : AuthEnv) (token : PyStr) : Except HTTPError TokenClaims :=
  match env.decode token with
  | none => .error ⟨401, "Invalid token"⟩
  | some (claims, exp) =>
    if exp ≤ env.now then .error ⟨401, "Token expired"⟩
    else .ok claims

/-- A request as seen by the authorization gate: only the Authorization
header is read. -/
structure AuthRequest where
  authorization : Option PyStr
deriving DecidableEq

/-- Token extraction of the gate: token.split-on-space at index 1. The guard of the
gate guarantees the header starts with the Bearer prefix, so index 1
exists; the default is irrelevant on every reachable input. -/
def extractToken (s : PyStr) : PyStr :=
  (splitOnSpace s).getD 1 []

/-- is_logged_in from app/utils/middleware/dependancies.py: reject when the
Authorization header is falsy or lacks the Bearer prefix, else verify the
token extracted as split-on-space at index 1. -/
def is_logged_in (env : AuthEnv) (req : AuthRequest) : Except HTTPError TokenClaims :=
  let token := req.authorization
  if pyFalsy token || !pyStartsWith bearerPrefix (token.getD []) then
    .error ⟨401, "Missing or invalid token"⟩
  else
    verify_access_token env (extractToken (token.getD []))

/-- is_admin from dependancies.py: run is_logged_in, then reject with 403
unless the decoded role equals admin. -/
def is_admin (env : AuthEnv) (req : AuthRequest) : Except HTTPError TokenClaims :=
  match is_logged_in env req with
  | .error e => .error e
  | .ok decoded =>
    if decoded.role ≠ "admin".toList then
      .error ⟨403, "Only admins can access this resource"⟩
    else .ok decoded

/-- is_admin_or_instructor from dependancies.py: run is_logged_in, then
reject with 403 unless the decoded role is admin or instructor. -/
def is_admin_or_instructor (env : AuthEnv) (req : AuthRequest) : Except HTTPError TokenClaims :=
  match is_logged_in env req with
  | .error e => .error e
  | .ok decoded =>
    if decoded.role ∉ ["admin".toList, "instructor".toList] then
      .error ⟨403, "Only admins or instructors can access this resource"⟩
    else .ok decoded

/-- get_optional_user_id from dependancies.py: same header guard and token
extraction as is_logged_in, but every verification failure is caught and
mapped to none; a successful verification yields the id field of the claim
dict (the dict is nonempty, hence truthy, whenever verification succeeds). -/
def get_optional_user_id (env : AuthEnv) (req : AuthRequest) : Option PyStr :=
  let token := req.authorization
  if pyFalsy token || !pyStartsWith bearerPrefix (token.getD []) then
    none
  else
    match verify_access_token env (extractToken (token.getD [])) with
    | .error _ => none
    | .ok userData => some userData.id

/-- A request as seen by the rate limiter key function: the Authorization
header (consumed through the get_optional_user_id dependency) and the remote
address of the client. -/
structure LimiterRequest where
  authorization : Option PyStr
  remoteAddress : PyStr
deriving DecidableEq

/-- get_remote_address from slowapi.util: the network origin of the
request. -/
def get_remote_address (req : LimiterRequest) : PyStr :=
  req.remoteAddress

/-- jwt_user_or_ip_key from app/utils/security/limiter.py: the user id
injected by get_optional_user_id when truthy (in Python, a None or empty id
is falsy), else the remote address. -/
def jwt_user_or_ip_key (env : AuthEnv) (req : LimiterRequest) : PyStr :=
  match get_optional_user_id env ⟨req.authorization⟩ with
  | some userId => if userId.isEmpty then get_remote_address req else userId
  | none => get_remote_address req

/-! ## SHA-256 and HMAC

The webhook handler calls hashlib.sha256 through hmac.new(...).hexdigest().
The hash is embedded over `Nat` with explicit reduction modulo 2^32
(`w32`); messages and digests are lists of byte values. -/

/-- Reduction modulo 2^32, the word size of SHA-256. -/
def w32 (n : Nat) : Nat := n % 4294967296

/-- Right rotation of a 32-bit word. -/
def rotr32 (n x : Nat) : Nat := w32 ((x >>> n) ||| (x <<< (32 - n)))

/-- Round constants of SHA-256. -/
def sha256K : List Nat :=
  [1116352408, 1899447441, 3049323471, 3921009573, 961987163, 1508970993,
   2453635748, 2870763221, 3624381080, 310598401, 607225278, 1426881987,
   1925078388, 2162078206, 2614888103, 3248222580, 3835390401, 4022224774,
   264347078, 604807628, 770255983, 1249150122, 1555081692, 1996064986,
   2554220882, 2821834349, 2952996808, 3210313671, 3336571891, 3584528711,
   113926993, 338241895, 666307205, 773529912, 1294757372, 1396182291,
   1695183700, 1986661051, 2177026350, 2456956037, 2730485921, 2820302411,
   3259730800, 3345764771, 3516065817, 3600352804, 4094571909, 275423344,
   430227734, 506948616, 659060556, 883997877, 958139571, 1322822218,
   1537002063, 1747873779, 1955562222, 2024104815, 2227730452, 2361852424,
   2428436474, 2756734187, 3204031479, 3329325298]

/-- Big-endian bytes of a value, most significant first, fixed width. -/
def natToBytesBE : Nat → Nat → List Nat
  | 0, _ => []
  | k + 1, n => natToBytesBE k (n / 256) ++ [n % 256]

/-- Group a byte list into big-endian 32-bit words. -/
def bytesToWordsBE : List Nat → List Nat
  | b0 :: b1 :: b2 :: b3 :: rest =>
    (((b0 * 256 + b1) * 256 + b2) * 256 + b3) :: bytesToWordsBE rest
  | _ => []

/-- SHA-256 padding: append 0x80, zero bytes up to 56 mod 64, then the
bit length as 8 big-endian bytes. -/
def sha256Pad (msg : List Nat) : List Nat :=
  let zeros := (119 - msg.length % 64) % 64
  msg ++ 0x80 :: List.replicate zeros 0 ++ natToBytesBE 8 (8 * msg.length)

/-- Split a byte list into successive blocks of 64 bytes (the accumulator
holds the current block reversed; the count is its length). -/
def chunks64Aux : List Nat → List Nat → Nat → List (List Nat)
  | [], acc, _ => if acc.isEmpty then [] else [acc.reverse]
  | b :: bs, acc, k =>
    if k = 63 then (b :: acc).reverse :: chunks64Aux bs [] 0
    else chunks64Aux bs (b :: acc) (k + 1)

/-- Blocks of 64 bytes of a padded message. -/
def chunksOf64 (bs : List Nat) : List (List Nat) := chunks64Aux bs [] 0

/-- Message schedule: extend the 16 words of a block to 64. -/
def sha256Schedule (ws : Array Nat) : Array Nat :=
  (List.range 48).foldl (fun w j =>
    let x15 := w.getD (j + 1) 0
    let x2 := w.getD (j + 14) 0
    let s0 := (rotr32 7 x15) ^^^ (rotr32 18 x15) ^^^ (x15 >>> 3)
    let s1 := (rotr32 17 x2) ^^^ (rotr32 19 x2) ^^^ (x2 >>> 10)
    w.push (w32 (w.getD j 0 + s0 + w.getD (j + 9) 0 + s1))) ws

/-- Working state of the compression function. -/
structure Sha256State where
  a : Nat
  b : Nat
  c : Nat
  d : Nat
  e : Nat
  f : Nat
  g : Nat
  h : Nat
deriving DecidableEq, Repr

/-- Initial hash state of SHA-256. -/
def sha256H0 : Sha256State :=
  ⟨1779033703, 3144134277, 1013904242, 2773480762, 1359893119, 2600822924, 528734635, 1541459225⟩

/-- One round of the compression function; kw is the round constant plus
the schedule word, already reduced. -/
def sha256Round (st : Sha256State) (kw : Nat) : Sha256State :=
  let bigS1 := (rotr32 6 st.e) ^^^ (rotr32 11 st.e) ^^^ (rotr32 25 st.e)
  let ch := (st.e &&& st.f) ^^^ ((4294967295 ^^^ st.e) &&& st.g)
  let temp1 := w32 (st.h + bigS1 + ch + kw)
  let bigS0 := (rotr32 2 st.a) ^^^ (rotr32 13 st.a) ^^^ (rotr32 22 st.a)
  let maj := (st.a &&& st.b) ^^^ (st.a &&& st.c) ^^^ (st.b &&& st.c)
  let temp2 := w32 (bigS0 + maj)
  ⟨w32 (temp1 + temp2), st.a, st.b, st.c, w32 (st.d + temp1), st.e, st.f, st.g⟩

/-- Compress one 64-byte block into the running state. -/
def sha256Compress (hs : Sha256State) (block : List Nat) : Sha256State :=
  let w := sha256Schedule (Array.mk (bytesToWordsBE block))
  let st := (List.zip sha256K w.toList).foldl
    (fun st p => sha256Round st (w32 (p.1 + p.2))) hs
  ⟨w32 (hs.a + st.a), w32 (hs.b + st.b), w32 (hs.c + st.c), w32 (hs.d + st.d),
   w32 (hs.e + st.e), w32 (hs.f + st.f), w32 (hs.g + st.g), w32 (hs.h + st.h)⟩

/-- SHA-256 of a byte list, as the 32 digest bytes. -/
def sha256Bytes (msg : List Nat) : List Nat :=
  let st := (chunksOf64 (sha256Pad msg)).foldl sha256Compress sha256H0
  ([st.a, st.b, st.c, st.d, st.e, st.f, st.g, st.h].map (natToBytesBE 4)).flatten

/-- Lowercase hexadecimal digit. -/
def hexDigitChar (n : Nat) : Char := "0123456789abcdef".toList.getD n '0'

/-- Lowercase hexadecimal rendering of a byte list, as hexdigest produces. -/
def bytesToHex (bs : List Nat) : PyStr :=
  (bs.map (fun b => [hexDigitChar (b / 16), hexDigitChar (b % 16)])).flatten

/-- HMAC-SHA256 digest bytes: hash an over-long key, zero-pad to the block
size, then nest the two keyed hashes. -/
def hmacSha256 (key msg : List Nat) : List Nat :=
  let k0 := if 64 < key.length then sha256Bytes key else key
  let kpad := k0 ++ List.replicate (64 - k0.length) 0
  sha256Bytes ((kpad.map (fun b => b ^^^ 0x5c)) ++
    sha256Bytes ((kpad.map (fun b => b ^^^ 0x36)) ++ msg))

/-- hmac.new(key, msg, hashlib.sha256).hexdigest(). -/
def hmacSha256Hexdigest (key msg : List Nat) : PyStr :=
  bytesToHex (hmacSha256 key msg)

/-- UTF-8 bytes of an ASCII string (str.encode in the handler). -/
def strBytes (s : PyStr) : List Nat := s.map Char.toNat

/-! ## hmac.compare_digest

CPython implements compare_digest by the _tscmp loop: it picks the left
operand to be the first argument when the lengths agree and the second
argument otherwise, ORs the XOR of every byte pair into an accumulator
seeded with the length comparison, and never exits early. The embedding
returns the boolean result together with the number of byte comparisons
performed, so that the timing claim can be stated about the step count. -/

/-- The _tscmp loop: fold XOR of each pair into the accumulator, counting
one step per byte pair examined. -/
def tscmpLoop : List Char → List Char → Nat → Nat × Nat
  | l :: ls, r :: rs, acc =>
    let p := tscmpLoop ls rs (acc ||| (l.toNat ^^^ r.toNat))
    (p.1, p.2 + 1)
  | _, _, acc => (acc, 0)

/-- hmac.compare_digest on ASCII strings: the boolean verdict and the
number of byte comparisons performed. -/
def compare_digest (a b : PyStr) : Bool × Nat :=
  let left := if a.length = b.length then a else b
  let seed := if a.length = b.length then 0 else 1
  let r := tscmpLoop left b seed
  (r.1 = 0, r.2)

/-! ## JSON

The handler calls json.loads on the raw body and json.dumps with compact
separators on the parsed value. The embedding covers JSON objects, arrays,
strings (with the single-character escapes; the \u escape form is not
modelled), integer numbers (floats are outside the model; no claim at issue
involves them), booleans and null, with dict semantics for repeated object
keys: a later binding overwrites the value but keeps the original position,
exactly as a Python dict built by repeated insertion does. -/

/-- Parsed JSON values. Object entries are listed in insertion order, as
Python dicts preserve it. -/
inductive Json where
  | null
  | bool (b : Bool)
  | num (n : Int)
  | str (s : PyStr)
  | arr (elems : List Json)
  | obj (entries : List (PyStr × Json))

/-- Dict insertion: an existing key keeps its position and takes the new
value; a new key is appended. -/
def dictInsert (entries : List (PyStr × Json)) (k : PyStr) (v : Json) :
    List (PyStr × Json) :=
  match entries with
  | [] => [(k, v)]
  | (k0, v0) :: rest =>
    if k0 = k then (k0, v) :: rest else (k0, v0) :: dictInsert rest k v

/-- Dict lookup (dict.get with default None). -/
def dictGet (entries : List (PyStr × Json)) (k : PyStr) : Option Json :=
  match entries with
  | [] => none
  | (k0, v0) :: rest => if k0 = k then some v0 else dictGet rest k

/-- JSON whitespace removal from the front. -/
def skipWs : PyStr → PyStr
  | c :: cs => if c = ' ' ∨ c = '\t' ∨ c = '\n' ∨ c = '\r' then skipWs cs else c :: cs
  | [] => []

/-- Parse the remainder of a JSON string literal after the opening quote:
the decoded content and the input after the closing quote. -/
def parseStringRest : PyStr → Option (PyStr × PyStr)
  | [] => none
  | c :: cs =>
    if c = '"' then some ([], cs)
    else if c = '\\' then
      match cs with
      | [] => none
      | e :: cs2 =>
        let dec : Option Char :=
          if e = '"' then some '"'
          else if e = '\\' then some '\\'
          else if e = '/' then some '/'
          else if e = 'n' then some '\n'
          else if e = 't' then some '\t'
          else if e = 'r' then some '\r'
          else if e = 'b' then some (Char.ofNat 8)
          else if e = 'f' then some (Char.ofNat 12)
          else none
        match dec with
        | none => none
        | some d =>
          match parseStringRest cs2 with
          | some (s, rest) => some (d :: s, rest)
          | none => none
    else
      match parseStringRest cs with
      | some (s, rest) => some (c :: s, rest)
      | none => none

/-- Take the leading run of decimal digits. -/
def takeDigits : PyStr → List Char × PyStr
  | c :: cs =>
    if c.isDigit then
      let p := takeDigits cs
      (c :: p.1, p.2)
    else ([], c :: cs)
  | [] => ([], [])

/-- Value of a digit run. -/
def digitsToNat (ds : List Char) : Nat :=
  ds.foldl (fun a c => a * 10 + (c.toNat - 48)) 0

/-- Parse a JSON integer literal: optional minus sign, digits without a
redundant leading zero, not followed by a fraction or exponent. -/
def parseIntLit (s : PyStr) : Option (Json × PyStr) :=
  let (neg, s1) := match s with
    | '-' :: rest => (true, rest)
    | _ => (false, s)
  let (ds, rest) := takeDigits s1
  if ds.isEmpty then none
  else if ds.head? = some '0' ∧ ds.length > 1 then none
  else
    match rest with
    | '.' :: _ => none
    | 'e' :: _ => none
    | 'E' :: _ => none
    | _ =>
      let n : Int := Int.ofNat (digitsToNat ds)
      some (.num (if neg then -n else n), rest)

mutual

/-- Parse one JSON value; fuel bounds the nesting depth and exceeds it
whenever it starts at the input length plus one. -/
def parseJsonValue : Nat → PyStr → Option (Json × PyStr)
  | 0, _ => none
  | fuel + 1, input =>
    match skipWs input with
    | [] => none
    | c :: cs =>
      if c = '\x7b' then
        match skipWs cs with
        | '\x7d' :: rest => some (.obj [], rest)
        | s2 => parseJsonMembers fuel s2 []
      else if c = '[' then
        match skipWs cs with
        | ']' :: rest => some (.arr [], rest)
        | s2 => parseJsonElements fuel s2 []
      else if c = '"' then
        match parseStringRest cs with
        | some (s, rest) => some (.str s, rest)
        | none => none
      else if c = 't' then
        match cs with
        | 'r' :: 'u' :: 'e' :: rest => some (.bool true, rest)
        | _ => none
      else if c = 'f' then
        match cs with
        | 'a' :: 'l' :: 's' :: 'e' :: rest => some (.bool false, rest)
        | _ => none
      else if c = 'n' then
        match cs with
        | 'u' :: 'l' :: 'l' :: rest => some (.null, rest)
        | _ => none
      else if c = '-' ∨ c.isDigit then parseIntLit (c :: cs)
      else none

/-- Parse the members of a nonempty JSON object, the opening brace already
consumed, accumulating entries with dict semantics. -/
def parseJsonMembers : Nat → PyStr → List (PyStr × Json) →
    Option (Json × PyStr)
  | 0, _, _ => none
  | fuel + 1, input, acc =>
    match skipWs input with
    | '"' :: cs =>
      match parseStringRest cs with
      | some (k, rest) =>
        match skipWs rest with
        | ':' :: rest2 =>
          match parseJsonValue fuel rest2 with
          | some (v, rest3) =>
            let acc2 := dictInsert acc k v
            match skipWs rest3 with
            | ',' :: rest4 => parseJsonMembers fuel rest4 acc2
            | '\x7d' :: rest4 => some (.obj acc2, rest4)
            | _ => none
          | none => none
        | _ => none
      | none => none
    | _ => none

/-- Parse the elements of a nonempty JSON array, the opening bracket
already consumed. -/
def parseJsonElements : Nat → PyStr → List Json → Option (Json × PyStr)
  | 0, _, _ => none
  | fuel + 1, input, acc =>
    match parseJsonValue fuel input with
    | some (v, rest) =>
      match skipWs rest with
      | ',' :: rest2 => parseJsonElements fuel rest2 (acc ++ [v])
      | ']' :: rest2 => some (.arr (acc ++ [v]), rest2)
      | _ => none
    | none => none

end

/-- json.loads: parse the whole body as one JSON value, allowing
surrounding whitespace only. -/
def json_loads (body : PyStr) : Option Json :=
  match parseJsonValue (body.length + 1) body with
  | some (v, rest) => if (skipWs rest).isEmpty then some v else none
  | none => none

/-- Escapes applied by json.dumps to string content (ASCII inputs). -/
def escapeJsonChar (c : Char) : PyStr :=
  if c = '"' then ['\\', '"']
  else if c = '\\' then ['\\', '\\']
  else if c = '\n' then ['\\', 'n']
  else if c = '\t' then ['\\', 't']
  else if c = '\r' then ['\\', 'r']
  else [c]

/-- Serialization of a JSON string literal. -/
def dumpJsonString (s : PyStr) : PyStr :=
  '"' :: (s.map escapeJsonChar).flatten ++ ['"']

/-- Join serialized items with the compact item separator. -/
def joinComma : List PyStr → PyStr
  | [] => []
  | [x] => x
  | x :: y :: rest => x ++ ',' :: joinComma (y :: rest)

mutual

/-- json.dumps with separators comma and colon: the compact, deterministic
serialization the handler re-hashes. -/
def jsonDumpCompact : Json → PyStr
  | .null => "null".toList
  | .bool true => "true".toList
  | .bool false => "false".toList
  | .num n => (toString n).toList
  | .str s => dumpJsonString s
  | .arr xs => '[' :: joinComma (dumpJsonList xs) ++ [']']
  | .obj kvs => '\x7b' :: joinComma (dumpJsonMembers kvs) ++ ['\x7d']

/-- Serialized array elements, in order. -/
def dumpJsonList : List Json → List PyStr
  | [] => []
  | v :: rest => jsonDumpCompact v :: dumpJsonList rest

/-- Serialized object members, key colon value, in insertion order. -/
def dumpJsonMembers : List (PyStr × Json) → List PyStr
  | [] => []
  | (k, v) :: rest => (dumpJsonString k ++ ':' :: jsonDumpCompact v) :: dumpJsonMembers rest

end

/-! ## The webhook handler

POST /payment/webhook of app/router/endpoints/payment_router.py. Returning
`Except.ok payload` embeds reaching the final line, which forwards the
parsed payload to payment_service.process_payment_callback; every raise of
HTTPException is an `Except.error`. -/

/-- A webhook request: the two signature headers the handler reads, and the
raw body. -/
structure WebhookRequest where
  xChapaSignature : Option PyStr
  chapaSignature : Option PyStr
  body : PyStr
deriving DecidableEq

/-- CallbackPayload from the course schema, fields filled from
payload_dict.get, which yields None for an absent key. -/
structure CallbackPayload where
  trx_ref : Option Json
  status : Option Json
  reference : Option Json

/-- dict.get on a parsed payload; only an object has entries (the handler
reaches this lookup only after signature success). -/
def payloadGet (payload : Json) (k : PyStr) : Option Json :=
  match payload with
  | .obj entries => dictGet entries k
  | _ => none

/-- Signature header selection of the handler: x-chapa-signature first,
falling back to Chapa-Signature when the former is falsy, rejecting when
the result is still falsy. -/
def effectiveSignature (req : WebhookRequest) : Option PyStr :=
  let sig1 := req.xChapaSignature
  let sig2 := if pyFalsy sig1 then req.chapaSignature else sig1
  if pyFalsy sig2 then none else sig2

/-- Steps 2 to 5 of the handler, after a signature header value has been
resolved: parse the raw body as JSON, re-serialize the parsed value with
compact separators, HMAC-SHA256 the re-serialized bytes under the webhook
secret, compare with compare_digest, and on success forward the payload
fields read from the parsed dict. -/
def webhookVerifyAndForward (secret chapaSignature body : PyStr) :
    Except HTTPError CallbackPayload :=
  match json_loads body with
  | none => .error ⟨400, "Invalid JSON in request body."⟩
  | some payloadDict =>
    let payloadToHash := strBytes (jsonDumpCompact payloadDict)
    let localSignature := hmacSha256Hexdigest (strBytes secret) payloadToHash
    if (compare_digest localSignature chapaSignature).1 then
      .ok ⟨payloadGet payloadDict "trx_ref".toList,
           payloadGet payloadDict "status".toList,
           payloadGet payloadDict "reference".toList⟩
    else
      .error ⟨401, "Invalid signature."⟩

/-- payment_callback on POST /payment/webhook: resolve the signature
header, then verify and forward. -/
def payment_callback (secret : PyStr) (req : WebhookRequest) :
    Except HTTPError CallbackPayload :=
  match effectiveSignature req with
  | none => .error ⟨400, "Webhook signature header not found."⟩
  | some chapaSignature => webhookVerifyAndForward secret chapaSignature req.body

/-! ## Helper lemmas -/

/-- A string starts with a prefix glued in front of anything. -/
lemma pyStartsWith_append (p rest : PyStr) : pyStartsWith p (p ++ rest) = true := by
  induction p with
  | nil => simp [pyStartsWith]
  | cons c cs ih => simp [pyStartsWith, ih]

/-- Splitting a space-free string, a space, and a remainder yields the
space-free string as the first field. -/
lemma splitOnSpace_append_space (s1 s2 : PyStr) (h : ' ' ∉ s1) :
    splitOnSpace (s1 ++ ' ' :: s2) = s1 :: splitOnSpace s2 := by
  induction s1 with
  | nil => simp [splitOnSpace]
  | cons c cs ih =>
    have hc : ¬c = ' ' := fun hcc => h (hcc ▸ List.mem_cons_self c cs)
    have hcs : ' ' ∉ cs := fun hm => h (List.mem_cons_of_mem c hm)
    simp [splitOnSpace, hc, ih hcs]

/-- A header that passes the Bearer guard is nonempty, hence truthy. -/
lemma pyFalsy_of_startsWith {s : PyStr} (h : pyStartsWith bearerPrefix s = true) :
    pyFalsy (some s) = false := by
  cases s with
  | nil => simp [bearerPrefix, pyStartsWith] at h
  | cons c cs => rfl

/-! ## Claims about the authorization gate -/

/-- C5: the base authorization gate fails with status 401 when the
Authorization header is absent or lacks the Bearer-space prefix, and when
the extracted token fails signature verification (the verifier environment
decodes it to nothing) or is expired; when verification succeeds it returns
the decoded claim set, which carries the subject id and the role. -/
theorem is_logged_in_behavior (env : AuthEnv) (req : AuthRequest) :
    ((req.authorization = none ∨
        ∃ s, req.authorization = some s ∧ pyStartsWith bearerPrefix s = false) →
      is_logged_in env req = .error ⟨401, "Missing or invalid token"⟩)
    ∧ (∀ s, req.authorization = some s → pyStartsWith bearerPrefix s = true →
        (env.decode (extractToken s) = none →
          is_logged_in env req = .error ⟨401, "Invalid token"⟩)
        ∧ (∀ claims exp, env.decode (extractToken s) = some (claims, exp) →
            exp ≤ env.now → is_logged_in env req = .error ⟨401, "Token expired"⟩)
        ∧ (∀ claims exp, env.decode (extractToken s) = some (claims, exp) →
            env.now < exp → is_logged_in env req = .ok claims)) := by
  obtain ⟨auth⟩ := req
  constructor
  · rintro (h | ⟨s, h, hpre⟩)
    · subst h; rfl
    · subst h
      simp [is_logged_in, hpre]
  · rintro s rfl hpre
    have hfal := pyFalsy_of_startsWith hpre
    refine ⟨fun hd => ?_, fun claims exp hd hexp => ?_, fun claims exp hd hexp => ?_⟩
    · simp [is_logged_in, hfal, hpre, verify_access_token, hd]
    · simp [is_logged_in, hfal, hpre, verify_access_token, hd, hexp]
    · have hlt : ¬exp ≤ env.now := Nat.not_le.mpr hexp
      simp [is_logged_in, hfal, hpre, verify_access_token, hd, hlt]

/-- Witness for C5 at a concrete input: a request with no Authorization
header is rejected with 401. -/
theorem is_logged_in_behavior_witness :
    is_logged_in ⟨fun _ => none, 0⟩ ⟨none⟩ = .error ⟨401, "Missing or invalid token"⟩ :=
  (is_logged_in_behavior ⟨fun _ => none, 0⟩ ⟨none⟩).1 (Or.inl rfl)

/-- C6: given a request on which the base gate succeeds with claims c, the
role-requiring checks fail with 403 exactly when the role is outside the
required set, and otherwise return c unchanged, for the single-role variant
(admin) and the multi-role variant (admin or instructor). -/
theorem role_gate_behavior (env : AuthEnv) (req : AuthRequest) (c : TokenClaims)
    (h : is_logged_in env req = .ok c) :
    is_admin env req =
      (if c.role = "admin".toList then .ok c
       else .error ⟨403, "Only admins can access this resource"⟩)
    ∧ is_admin_or_instructor env req =
      (if c.role = "admin".toList ∨ c.role = "instructor".toList then .ok c
       else .error ⟨403, "Only admins or instructors can access this resource"⟩) := by
  have hadmin : is_admin env req =
      (if c.role ≠ "admin".toList then
        .error ⟨403, "Only admins can access this resource"⟩
       else .ok c) := by
    unfold is_admin; rw [h]
  have hmulti : is_admin_or_instructor env req =
      (if c.role ∉ ["admin".toList, "instructor".toList] then
        .error ⟨403, "Only admins or instructors can access this resource"⟩
       else .ok c) := by
    unfold is_admin_or_instructor; rw [h]
  constructor
  · rw [hadmin]
    by_cases hr : c.role = "admin".toList
    · rw [if_neg (not_not_intro hr), if_pos hr]
    · rw [if_pos hr, if_neg hr]
  · rw [hmulti]
    by_cases hr : c.role = "admin".toList ∨ c.role = "instructor".toList
    · have hmem : c.role ∈ ["admin".toList, "instructor".toList] := by
        rcases hr with hr | hr <;> simp [hr]
      rw [if_neg (not_not_intro hmem), if_pos hr]
    · have hnm : c.role ∉ ["admin".toList, "instructor".toList] := by
        simpa using hr
      rw [if_pos hnm, if_neg hr]

/-- Demo verifier environment for witnesses: a single known token decoding
to an admin claim set that expires at time 10, with the clock at 5. -/
def demoEnv : AuthEnv :=
  ⟨fun t => if t = "tok".toList then some (⟨"u1".toList, "admin".toList⟩, 10) else none, 5⟩

/-- Witness for C6 at a concrete input: the demo admin token passes
is_admin. -/
theorem role_gate_behavior_witness :
    is_admin demoEnv ⟨some "Bearer tok".toList⟩ = .ok ⟨"u1".toList, "admin".toList⟩ := by
  have h := (role_gate_behavior demoEnv ⟨some "Bearer tok".toList⟩
    ⟨"u1".toList, "admin".toList⟩ rfl).1
  simpa using h

/-- The optional variant agrees with the base gate, mapping every rejection
to none and success to the id. -/
lemma optional_matches_gate (env : AuthEnv) (req : AuthRequest) :
    get_optional_user_id env req =
      (match is_logged_in env req with
       | .ok c => some c.id
       | .error _ => none) := by
  obtain ⟨auth⟩ := req
  cases auth with
  | none => rfl
  | some s =>
    by_cases hpre : pyStartsWith bearerPrefix s = true
    · have hfal := pyFalsy_of_startsWith hpre
      simp only [get_optional_user_id, is_logged_in, hfal, hpre, Bool.not_true,
        Bool.or_false, Option.getD_some, if_false, Bool.false_eq_true]
      cases verify_access_token env (extractToken s) <;> simp
    · have hpre2 : pyStartsWith bearerPrefix s = false := by
        simpa using hpre
      simp [get_optional_user_id, is_logged_in, hpre2]

/-- C7: the optional-identity variant never raises: it is a total function
into Option, returning the id of the decoded claims exactly when the base
gate would succeed, and none whenever the base gate would reject (missing
header, malformed header, invalid signature, expired token). -/
theorem get_optional_user_id_never_raises (env : AuthEnv) (req : AuthRequest) :
    get_optional_user_id env req =
      (match is_logged_in env req with
       | .ok c => some c.id
       | .error _ => none) :=
  optional_matches_gate env req

/-- C9: the rate limiter key is the authenticated identity resolved by
get_optional_user_id when one is available (a nonempty id, the only kind a
signed token carries), and the remote address otherwise. -/
theorem jwt_user_or_ip_key_behavior (env : AuthEnv) (req : LimiterRequest) :
    (∀ uid, get_optional_user_id env ⟨req.authorization⟩ = some uid → uid ≠ [] →
      jwt_user_or_ip_key env req = uid)
    ∧ (get_optional_user_id env ⟨req.authorization⟩ = none →
      jwt_user_or_ip_key env req = get_remote_address req) := by
  constructor
  · intro uid hu hne
    cases uid with
    | nil => exact absurd rfl hne
    | cons c cs => simp [jwt_user_or_ip_key, hu]
  · intro hu
    simp [jwt_user_or_ip_key, hu]

/-- Witness for C9 at a concrete input: the demo token keys by user id. -/
theorem jwt_user_or_ip_key_behavior_witness :
    jwt_user_or_ip_key demoEnv ⟨some "Bearer tok".toList, "9.9.9.9".toList⟩ = "u1".toList :=
  (jwt_user_or_ip_key_behavior demoEnv ⟨some "Bearer tok".toList, "9.9.9.9".toList⟩).1
    "u1".toList rfl (by decide)

/-- C10: both gates submit to verification exactly the substring of the
Authorization header between its first and second space: on a header of
Bearer-space, a space-free s1, a space, and arbitrary s2, the gates behave
as verification of s1 alone, with everything after the second space
ignored; and a header whose Bearer prefix is followed immediately by
another space submits the empty token. -/
theorem token_between_spaces (env : AuthEnv) (s1 s2 : PyStr) (h : ' ' ∉ s1) :
    is_logged_in env ⟨some (bearerPrefix ++ s1 ++ ' ' :: s2)⟩ =
      verify_access_token env s1
    ∧ get_optional_user_id env ⟨some (bearerPrefix ++ s1 ++ ' ' :: s2)⟩ =
      (match verify_access_token env s1 with
       | .ok u => some u.id
       | .error _ => none)
    ∧ extractToken (bearerPrefix ++ s1 ++ ' ' :: s2) = s1
    ∧ extractToken (bearerPrefix ++ ' ' :: s2) = [] := by
  have hassoc : bearerPrefix ++ s1 ++ ' ' :: s2 =
      "Bearer".toList ++ ' ' :: (s1 ++ ' ' :: s2) := rfl
  have hsplit : splitOnSpace (bearerPrefix ++ s1 ++ ' ' :: s2) =
      "Bearer".toList :: s1 :: splitOnSpace s2 := by
    rw [hassoc, splitOnSpace_append_space _ _ (by decide),
      splitOnSpace_append_space s1 s2 h]
  have hext : extractToken (bearerPrefix ++ s1 ++ ' ' :: s2) = s1 := by
    unfold extractToken
    rw [hsplit]
    rfl
  have hassoc2 : bearerPrefix ++ ' ' :: s2 =
      "Bearer".toList ++ ' ' :: (' ' :: s2) := rfl
  have hext2 : extractToken (bearerPrefix ++ ' ' :: s2) = [] := by
    rw [hassoc2]
    rw [extractToken, splitOnSpace_append_space _ _ (by decide)]
    simp [splitOnSpace]
  have hpre : pyStartsWith bearerPrefix (bearerPrefix ++ (s1 ++ ' ' :: s2)) = true :=
    pyStartsWith_append bearerPrefix (s1 ++ ' ' :: s2)
  have hfal : pyFalsy (some (bearerPrefix ++ (s1 ++ ' ' :: s2))) = false :=
    pyFalsy_of_startsWith hpre
  have hexta : extractToken (bearerPrefix ++ (s1 ++ ' ' :: s2)) = s1 := hext
  have hgate : is_logged_in env ⟨some (bearerPrefix ++ s1 ++ ' ' :: s2)⟩ =
      verify_access_token env s1 := by
    simp [is_logged_in, hfal, hpre, hexta]
  refine ⟨hgate, ?_, hext, hext2⟩
  rw [optional_matches_gate, hgate]

/-- Witness for C10 at a concrete input: with a trailing field after the
token, only the token is extracted. -/
theorem token_between_spaces_witness :
    extractToken (bearerPrefix ++ "tok".toList ++ ' ' :: "junk".toList) = "tok".toList :=
  (token_between_spaces demoEnv "tok".toList "junk".toList (by decide)).2.2.1

/-! ## Claims about the compare_digest timing model -/

/-- Characters with equal code points are equal. -/
lemma char_toNat_inj {a b : Char} (h : a.toNat = b.toNat) : a = b :=
  Char.ext (UInt32.ext h)

/-- A bitwise or of naturals vanishes exactly when both operands do. -/
lemma nat_lor_eq_zero_iff {m n : Nat} : m ||| n = 0 ↔ m = 0 ∧ n = 0 := by
  constructor
  · intro h
    have hm : ∀ i, m.testBit i = false := by
      intro i
      have hb := congrArg (fun x => Nat.testBit x i) h
      simp only [Nat.testBit_lor, Nat.zero_testBit, Bool.or_eq_false_iff] at hb
      exact hb.1
    have hn : ∀ i, n.testBit i = false := by
      intro i
      have hb := congrArg (fun x => Nat.testBit x i) h
      simp only [Nat.testBit_lor, Nat.zero_testBit, Bool.or_eq_false_iff] at hb
      exact hb.2
    exact ⟨Nat.eq_of_testBit_eq fun i => by simp [hm i],
           Nat.eq_of_testBit_eq fun i => by simp [hn i]⟩
  · rintro ⟨rfl, rfl⟩
    rfl

/-- The loop performs exactly one step per byte pair: as many steps as the
shorter operand has bytes, whatever the contents. -/
lemma tscmpLoop_steps (l : List Char) : ∀ (r : List Char) (acc : Nat),
    (tscmpLoop l r acc).2 = min l.length r.length := by
  induction l with
  | nil => intro r acc; cases r <;> simp [tscmpLoop]
  | cons c cs ih =>
    intro r acc
    cases r with
    | nil => simp [tscmpLoop]
    | cons d ds => simp [tscmpLoop, ih, Nat.succ_min_succ]

/-- The accumulator of the loop vanishes exactly when it started at zero
and every examined byte pair matched. -/
lemma tscmpLoop_fst_eq_zero (l : List Char) : ∀ (r : List Char) (acc : Nat),
    ((tscmpLoop l r acc).1 = 0 ↔ acc = 0 ∧ ∀ p ∈ List.zip l r, p.1 = p.2) := by
  induction l with
  | nil => intro r acc; cases r <;> simp [tscmpLoop]
  | cons c cs ih =>
    intro r acc
    cases r with
    | nil => simp [tscmpLoop]
    | cons d ds =>
      simp only [tscmpLoop, ih, nat_lor_eq_zero_iff, Nat.xor_eq_zero,
        List.zip_cons_cons, List.mem_cons]
      constructor
      · rintro ⟨⟨hacc, hcd⟩, hrest⟩
        exact ⟨hacc, fun p hp => hp.elim
          (fun hpe => hpe ▸ char_toNat_inj hcd) (hrest p)⟩
      · rintro ⟨hacc, hall⟩
        exact ⟨⟨hacc, congrArg Char.toNat (hall (c, d) (Or.inl rfl))⟩,
          fun p hp => hall p (Or.inr hp)⟩

/-- Equal-length lists whose zipped pairs all agree are equal. -/
lemma zip_forall_eq_iff (a : List Char) : ∀ (b : List Char), a.length = b.length →
    ((∀ p ∈ List.zip a b, p.1 = p.2) ↔ a = b) := by
  induction a with
  | nil =>
    intro b hb
    cases b with
    | nil => simp
    | cons d ds => simp at hb
  | cons c cs ih =>
    intro b hb
    cases b with
    | nil => simp at hb
    | cons d ds =>
      have hlen : cs.length = ds.length := by simpa using hb
      simp only [List.zip_cons_cons, List.mem_cons, List.cons.injEq]
      constructor
      · intro hall
        exact ⟨hall (c, d) (Or.inl rfl),
          (ih ds hlen).mp fun p hp => hall p (Or.inr hp)⟩
      · rintro ⟨h1, h2⟩
        rintro p hp
        rcases hp with hpe | hp
        · rw [hpe]
          exact h1
        · exact ((ih ds hlen).mpr h2) p hp

/-- C8: the signature comparison the webhook handler performs with
compare_digest is constant-time in the model where each examined byte pair
costs one step: the step count equals the length of the supplied signature,
whatever the contents of either operand and wherever the first mismatching
byte sits, so the loop never exits early; and its verdict is exact
equality. -/
theorem compare_digest_constant_time (a b : PyStr) :
    (compare_digest a b).2 = b.length
    ∧ ((compare_digest a b).1 = true ↔ a = b) := by
  unfold compare_digest
  by_cases h : a.length = b.length
  · simp only [h, if_pos rfl, if_true, reduceIte]
    constructor
    · rw [tscmpLoop_steps]
      simp [h]
    · simp only [decide_eq_true_eq, tscmpLoop_fst_eq_zero, true_and]
      rw [zip_forall_eq_iff a b h]
  · simp only [if_neg h]
    constructor
    · rw [tscmpLoop_steps]
      simp
    · simp only [decide_eq_true_eq, tscmpLoop_fst_eq_zero]
      constructor
      · rintro ⟨h1, -⟩
        exact absurd h1 one_ne_zero
      · rintro rfl
        exact absurd rfl h

/-! ## Claims about the webhook handler -/

/-- The post-header stage never produces the missing-header rejection: its
three outcomes are the malformed-body rejection, the invalid-signature
rejection, and success. -/
lemma verifyForward_ne_missing (secret sig body : PyStr) :
    webhookVerifyAndForward secret sig body ≠
      .error ⟨400, "Webhook signature header not found."⟩ := by
  unfold webhookVerifyAndForward
  cases hj : json_loads body with
  | none => simp
  | some payload =>
    by_cases hc : (compare_digest
        (hmacSha256Hexdigest (strBytes secret) (strBytes (jsonDumpCompact payload)))
        sig).1 = true
    · simp [hc]
    · simp only [Bool.not_eq_true] at hc
      simp [hc]

/-- The handler rejects with the missing-header error exactly when both
signature headers are falsy (absent or empty). -/
lemma effectiveSignature_none_iff (req : WebhookRequest) :
    effectiveSignature req = none ↔
      (pyFalsy req.xChapaSignature = true ∧ pyFalsy req.chapaSignature = true) := by
  unfold effectiveSignature
  by_cases h1 : pyFalsy req.xChapaSignature = true
  · simp only [h1, if_true, true_and, reduceIte]
    by_cases h2 : pyFalsy req.chapaSignature = true
    · simp [h2]
    · simp only [Bool.not_eq_true] at h2
      simp only [h2, Bool.false_eq_true, if_false, reduceIte]
      cases hc : req.chapaSignature with
      | none => rw [hc] at h2; simp [pyFalsy] at h2
      | some s => simp [h2]
  · simp only [Bool.not_eq_true] at h1
    simp only [h1, Bool.false_eq_true, if_false, reduceIte]
    cases hx : req.xChapaSignature with
    | none => rw [hx] at h1; simp [pyFalsy] at h1
    | some s => simp [h1]

/-- C3: on every failing check of the webhook handler — missing signature
header, body that does not parse as JSON, or signature mismatch — the
request is rejected with a 4xx-status error (400, 400 and 401
respectively), and every rejection carries status 400 or 401 and never
reaches the forwarding of a payload to the payment service. -/
theorem webhook_failure_no_state_change (secret : PyStr) (req : WebhookRequest) :
    (effectiveSignature req = none →
      payment_callback secret req = .error ⟨400, "Webhook signature header not found."⟩)
    ∧ (∀ sig, effectiveSignature req = some sig → json_loads req.body = none →
      payment_callback secret req = .error ⟨400, "Invalid JSON in request body."⟩)
    ∧ (∀ sig payload, effectiveSignature req = some sig →
      json_loads req.body = some payload →
      (compare_digest
        (hmacSha256Hexdigest (strBytes secret) (strBytes (jsonDumpCompact payload)))
        sig).1 = false →
      payment_callback secret req = .error ⟨401, "Invalid signature."⟩)
    ∧ (∀ e, payment_callback secret req = .error e →
      (e.statusCode = 400 ∨ e.statusCode = 401)
      ∧ ∀ p, payment_callback secret req ≠ .ok p) := by
  refine ⟨?_, ?_, ?_, ?_⟩
  · intro h
    simp [payment_callback, h]
  · intro sig hsig hjson
    simp [payment_callback, hsig, webhookVerifyAndForward, hjson]
  · intro sig payload hsig hjson hcmp
    simp [payment_callback, hsig, webhookVerifyAndForward, hjson, hcmp]
  · intro e he
    refine ⟨?_, fun p hp => by rw [he] at hp; exact Except.noConfusion hp⟩
    revert he
    unfold payment_callback webhookVerifyAndForward
    cases effectiveSignature req with
    | none =>
      intro he
      cases he
      simp
    | some sig =>
      cases json_loads req.body with
      | none =>
        intro he
        cases he
        simp
      | some payload =>
        dsimp only
        by_cases hc : (compare_digest
            (hmacSha256Hexdigest (strBytes secret) (strBytes (jsonDumpCompact payload)))
            sig).1 = true
        · rw [if_pos hc]
          intro he
          exact Except.noConfusion he
        · rw [if_neg hc]
          intro he
          cases he
          simp

/-- Witness for C3 at a concrete input: no signature header at all. -/
theorem webhook_failure_no_state_change_witness :
    payment_callback [] ⟨none, none, []⟩ =
      .error ⟨400, "Webhook signature header not found."⟩ :=
  (webhook_failure_no_state_change [] ⟨none, none, []⟩).1 rfl

/-- C4 as stated is false: a request whose x-chapa-signature header is
present with an empty value is rejected with the missing-signature error
although a signature header name is present. -/
theorem missing_signature_with_present_header :
    payment_callback [] ⟨some [], none, []⟩ =
      .error ⟨400, "Webhook signature header not found."⟩
    ∧ (⟨some [], none, []⟩ : WebhookRequest).xChapaSignature ≠ none :=
  ⟨rfl, by simp⟩

/-- C4 amended: the handler fails with the missing-signature error exactly
when neither header name carries a truthy (non-empty) value — an
empty-valued header counts as absent; when x-chapa-signature carries a
non-empty value it is used, when it is falsy and Chapa-Signature carries a
non-empty value that one is used, and with a resolved value the handler
proceeds to signature verification with it. -/
theorem missing_signature_iff_no_truthy_header (secret : PyStr) (req : WebhookRequest) :
    (payment_callback secret req =
        .error ⟨400, "Webhook signature header not found."⟩ ↔
      pyFalsy req.xChapaSignature = true ∧ pyFalsy req.chapaSignature = true)
    ∧ (∀ s, req.xChapaSignature = some s → s ≠ [] → effectiveSignature req = some s)
    ∧ (∀ s, pyFalsy req.xChapaSignature = true → req.chapaSignature = some s →
        s ≠ [] → effectiveSignature req = some s)
    ∧ (∀ s, effectiveSignature req = some s →
        payment_callback secret req = webhookVerifyAndForward secret s req.body) := by
  have hfwd : ∀ s, effectiveSignature req = some s →
      payment_callback secret req = webhookVerifyAndForward secret s req.body := by
    intro s h
    unfold payment_callback
    rw [h]
  refine ⟨?_, ?_, ?_, hfwd⟩
  · constructor
    · intro hmiss
      by_contra hne
      have hsome : effectiveSignature req ≠ none := by
        rw [Ne, effectiveSignature_none_iff]
        exact hne
      obtain ⟨s, hs⟩ := Option.ne_none_iff_exists.mp hsome
      exact verifyForward_ne_missing secret s req.body ((hfwd s hs.symm) ▸ hmiss)
    · intro hboth
      have hnone : effectiveSignature req = none :=
        (effectiveSignature_none_iff req).mpr hboth
      unfold payment_callback
      rw [hnone]
  · intro s hx hs
    have hps : pyFalsy (some s) = false := by
      cases s with
      | nil => exact absurd rfl hs
      | cons c cs => rfl
    unfold effectiveSignature
    rw [hx]
    simp [hps]
  · intro s h1 hc hs
    have hps : pyFalsy (some s) = false := by
      cases s with
      | nil => exact absurd rfl hs
      | cons c cs => rfl
    unfold effectiveSignature
    rw [hc]
    simp [h1, hps]

/-- Witness for C4 amended at a concrete input: both header names present
but empty yield the missing-signature rejection. -/
theorem missing_signature_iff_no_truthy_header_witness :
    payment_callback [] ⟨some [], some [], []⟩ =
      .error ⟨400, "Webhook signature header not found."⟩ :=
  (missing_signature_iff_no_truthy_header [] ⟨some [], some [], []⟩).1.mpr ⟨rfl, rfl⟩

/-- C2 is contradicted by the code: a request whose body is not valid JSON
and whose signature header does not match anything is rejected with the
malformed-payload error, because the handler parses the body before any
signature computation, not after. -/
theorem invalid_json_rejected_before_signature :
    payment_callback "testsecret".toList
      ⟨some "deadbeef".toList, none, "notjson".toList⟩ =
      .error ⟨400, "Invalid JSON in request body."⟩ := rfl

/-- The deployment-time webhook secret used in the concrete evaluations. -/
def chapaTestSecret : PyStr := "testsecret".toList

/-- A webhook body with a space after each colon and comma: one byte
encoding of the logical payload, and the exact raw bytes received. -/
def spacedBody : PyStr :=
  "\x7b\"trx_ref\": \"TX1\", \"status\": \"success\", \"reference\": \"REF1\"\x7d".toList

/-- The compact serialization of the same logical JSON value: a different
byte encoding of it. -/
def compactBody : PyStr :=
  "\x7b\"trx_ref\":\"TX1\",\"status\":\"success\",\"reference\":\"REF1\"\x7d".toList

/-- The signature a sender holding the secret computes over the exact raw
bytes of spacedBody, as received. -/
def rawBytesSignature : PyStr :=
  hmacSha256Hexdigest (strBytes chapaTestSecret) (strBytes spacedBody)

/-- A signature computed over the compact re-encoding rather than over the
bytes actually received. -/
def compactSignature : PyStr :=
  hmacSha256Hexdigest (strBytes chapaTestSecret) (strBytes compactBody)

set_option maxRecDepth 1000000 in
/-- C1 is contradicted by the code in both directions: a request carrying
the hex HMAC-SHA256 of the exact raw body bytes under the shared secret is
rejected as an invalid signature, while the same body accompanied by a
signature computed over a different byte encoding (the compact
re-serialization) of the same logical JSON value is accepted and its
parsed payload forwarded; the two encodings are distinct byte strings that
parse to the same value. The handler re-serializes the parsed body with
compact separators and HMACs that, instead of the raw bytes. -/
theorem reserialized_hmac_diverges_from_raw_bytes :
    payment_callback chapaTestSecret ⟨some rawBytesSignature, none, spacedBody⟩ =
      .error ⟨401, "Invalid signature."⟩
    ∧ payment_callback chapaTestSecret ⟨some compactSignature, none, spacedBody⟩ =
      .ok ⟨some (.str "TX1".toList), some (.str "success".toList),
           some (.str "REF1".toList)⟩
    ∧ compactBody ≠ spacedBody
    ∧ json_loads compactBody = json_loads spacedBody :=
  ⟨rfl, rfl, by decide, rfl⟩

end Enemamar
